import Mathlib

/-!
Verification development for the tNav historical-schedule generator
(`kwriter.py`, `main_sch.py`, `welltracks.py`).

The keyword emitters of `kwriter.py` are modelled as pure functions
returning the string that the Python code writes to its destination.
The timeline walker of `main_sch.py` is modelled as a function from the
normalized input tables to the list of emitted records, and the
trajectory compiler of `welltracks.py` as a function from the joined
trajectory table to the emitted keyword strings.
-/

set_option autoImplicit false

namespace TNav

/-! ## Character-list splitting machinery

Used to talk about the line structure and the space-separated token
structure of emitted keyword strings. -/

/-- Split a list of characters at every occurrence of the separator `c`.
Mirrors Python's `str.split(c)`: separators delimit (possibly empty) chunks. -/
def splitCh (c : Char) : List Char → List (List Char)
  | [] => [[]]
  | a :: as =>
    if a = c then [] :: splitCh c as
    else
      match splitCh c as with
      | [] => [[a]]
      | b :: bs => (a :: b) :: bs

theorem splitCh_ne_nil (c : Char) (l : List Char) : splitCh c l ≠ [] := by
  induction l with
  | nil => simp [splitCh]
  | cons a as ih =>
    simp only [splitCh]
    split
    · simp
    · cases h : splitCh c as with
      | nil => simp
      | cons b bs => simp

theorem splitCh_not_mem (c : Char) (l : List Char) (h : c ∉ l) :
    splitCh c l = [l] := by
  induction l with
  | nil => rfl
  | cons a as ih =>
    simp only [List.mem_cons, not_or] at h
    have hne : ¬ a = c := fun hh => h.1 hh.symm
    simp only [splitCh, if_neg hne, ih h.2]

theorem splitCh_append_cons (c : Char) (a b : List Char) (h : c ∉ a) :
    splitCh c (a ++ c :: b) = a :: splitCh c b := by
  induction a with
  | nil => simp [splitCh]
  | cons x xs ih =>
    simp only [List.mem_cons, not_or] at h
    have hne : ¬ x = c := fun hh => h.1 hh.symm
    simp only [List.cons_append, splitCh, if_neg hne, List.append_eq, ih h.2]

/-- The lines of a string: split its character data at newline characters. -/
def lineList (s : String) : List String :=
  (splitCh '\n' s.data).map String.mk

/-- The space-separated tokens of a (single-line) string: split at spaces
and drop empty chunks. -/
def tokList (s : String) : List String :=
  ((splitCh ' ' s.data).filter (fun w => ¬ w = [])).map String.mk

theorem string_mk_data (s : String) : String.mk s.data = s := by
  cases s
  rfl

theorem string_data_append (a b : String) : (a ++ b).data = a.data ++ b.data := by
  cases a
  cases b
  rfl

/-- Token split of a chunk `a ++ " " ++ rest`: a nonempty, space-free chunk
is one token. Stated on character data. -/
theorem tokSplit_cons (a : List Char) (rest : List Char) (hne : a ≠ [])
    (hsp : ' ' ∉ a) :
    ((splitCh ' ' (a ++ ' ' :: rest)).filter (fun w => ¬ w = [])).map String.mk
      = String.mk a ::
        ((splitCh ' ' rest).filter (fun w => ¬ w = [])).map String.mk := by
  rw [splitCh_append_cons ' ' a rest hsp]
  simp [List.filter_cons, hne]

/-! ## Keyword Emitter (`kwriter.py`)

Each `*_out` function below returns the string that the corresponding
Python function writes to its destination.  Optional (nullable) keyword
arguments are modelled as `Option String` holding the already-stringified
value; `none` corresponds to Python `None` and renders as the wildcard
token.  Arguments with a non-`None` Python default (e.g. `well_status`,
`phase`, `skin`) are plain `String`s: they are always set. -/

/-- Python `'* ' if val is None else f'{str(val)} '` for a nullable argument. -/
def argTok (v : Option String) : String :=
  match v with
  | none => "* "
  | some s => s ++ " "

/-- `specs_out` of `kwriter.py`: the WELSPECS keyword text.
Argument order: well_name, pad, coord_x, coord_y, ref_depth, phase,
drainage_radius, special_inflow, eco_behavior, crossflow_flag,
pres_table_num, dens_calc_type, fip_region. -/
def specs_out (well_name : String) (pad coord_x coord_y ref_depth : Option String)
    (phase : String)
    (drainage_radius special_inflow eco_behavior crossflow_flag
      pres_table_num dens_calc_type fip_region : Option String) : String :=
  "WELSPECS\n" ++ (well_name ++ " ") ++ argTok pad ++ argTok coord_x ++
    argTok coord_y ++ argTok ref_depth ++ (phase ++ " ") ++
    argTok drainage_radius ++ argTok special_inflow ++ argTok eco_behavior ++
    argTok crossflow_flag ++ argTok pres_table_num ++ argTok dens_calc_type ++
    argTok fip_region ++ "/\n" ++ "/\n\n"

/-- One coordinate line of a WELLTRACK keyword.  A trajectory point tuple is
`(X, Y, MD, Z)` and renders as `f'\x7bcoord_x\x7d \x7bcoord_y\x7d \x7bcoord_z\x7d \x7bmd\x7d \n'`. -/
def coordLine (p : String × String × String × String) : String :=
  match p with
  | (coord_x, coord_y, md, coord_z) =>
      coord_x ++ " " ++ coord_y ++ " " ++ coord_z ++ " " ++ md ++ " \n"

/-- The coordinate-line loop of `traj_out`: one line per trajectory
point, concatenated in source order. -/
def coordAll : List (String × String × String × String) → String
  | [] => ""
  | p :: ps => coordLine p ++ coordAll ps

/-- `traj_out` of `kwriter.py`: the WELLTRACK keyword text. -/
def traj_out (well_name : String)
    (coordinates : List (String × String × String × String)) : String :=
  "WELLTRACK " ++ well_name ++ "\n" ++ coordAll coordinates ++ "/\n\n"

/-- Input of `dates_out`: either a `datetime.date` (no time-of-day fields)
or a `datetime.datetime` (always carries hour/minute/second). -/
inductive DatesInput where
  | d (year month day : Nat)
  | dt (year month day hour minute second : Nat)
deriving DecidableEq

def DatesInput.year : DatesInput → Nat
  | .d y _ _ => y
  | .dt y _ _ _ _ _ => y

def DatesInput.month : DatesInput → Nat
  | .d _ m _ => m
  | .dt _ m _ _ _ _ => m

def DatesInput.day : DatesInput → Nat
  | .d _ _ dd => dd
  | .dt _ _ dd _ _ _ => dd

/-- The `month_codes` table of `dates_out` (note the non-standard `JLY`). -/
def month_codes (m : Nat) : String :=
  match m with
  | 1 => "JAN"
  | 2 => "FEB"
  | 3 => "MAR"
  | 4 => "APR"
  | 5 => "MAY"
  | 6 => "JUN"
  | 7 => "JLY"
  | 8 => "AUG"
  | 9 => "SEP"
  | 10 => "OCT"
  | 11 => "NOV"
  | 12 => "DEC"
  | _ => ""

/-- Python `f'\x7bn:02\x7d'` for a natural number: zero-pad to width 2. -/
def pad2 (n : Nat) : String :=
  if n < 10 then "0" ++ toString n else toString n

/-- The `hour_tail` of `dates_out`: empty for a `date` (the
`AttributeError` branch sets hour/minute/second to `None`), and
`f'\x7bhour:02\x7d:\x7bminute:02\x7d:\x7bsecond:02\x7d '` for a `datetime` regardless of the
time value. -/
def dates_hour_tail : DatesInput → String
  | .d _ _ _ => ""
  | .dt _ _ _ h mi s => pad2 h ++ ":" ++ pad2 mi ++ ":" ++ pad2 s ++ " "

/-- `dates_out` of `kwriter.py`: the DATES keyword text. -/
def dates_out (t : DatesInput) : String :=
  "DATES\n" ++
    pad2 t.day ++ " " ++ month_codes t.month ++ " " ++ toString t.year ++ " " ++
    dates_hour_tail t ++ "/\n" ++ "/\n\n"

/-- `wconprodh_out` of `kwriter.py`: the WCONHIST keyword text.
Argument order: well_name, well_status, well_control, oil_rate_h,
water_rate_h, gas_rate_h, vfp_num, alq, thp_h, bhp_h, wet_gas_rate_h,
ngl_rate_h. -/
def wconprodh_out (well_name well_status well_control : String)
    (oil_rate_h water_rate_h gas_rate_h vfp_num alq thp_h bhp_h
      wet_gas_rate_h ngl_rate_h : Option String) : String :=
  "WCONHIST\n" ++ (well_name ++ " ") ++ (well_status ++ " ") ++
    (well_control ++ " ") ++ argTok oil_rate_h ++ argTok water_rate_h ++
    argTok gas_rate_h ++ argTok vfp_num ++ argTok alq ++ argTok thp_h ++
    argTok bhp_h ++ argTok wet_gas_rate_h ++ argTok ngl_rate_h ++
    "/\n" ++ "/\n\n"

/-- `wconinjh_out` of `kwriter.py`: the WCONINJH keyword text.
Argument order: well_name, injected_fluid, well_status, inj_rate_h, bhp_h,
thp_h, vfp_num, second_phase_concentration, surf_oil_part, surf_water_part,
surf_gas_part, well_control. -/
def wconinjh_out (well_name injected_fluid well_status : String)
    (inj_rate_h bhp_h thp_h vfp_num second_phase_concentration
      surf_oil_part surf_water_part surf_gas_part : Option String)
    (well_control : String) : String :=
  "WCONINJH\n" ++ (well_name ++ " ") ++ (injected_fluid ++ " ") ++
    (well_status ++ " ") ++ argTok inj_rate_h ++ argTok bhp_h ++
    argTok thp_h ++ argTok vfp_num ++ argTok second_phase_concentration ++
    argTok surf_oil_part ++ argTok surf_water_part ++ argTok surf_gas_part ++
    (well_control ++ " ") ++ "/\n" ++ "/\n\n"

/-- `wefac_out` of `kwriter.py`: the WEFAC keyword text.
Argument order: well_name, efficiency_factor, apply_to_network. -/
def wefac_out (well_name efficiency_factor : String)
    (apply_to_network : Option String) : String :=
  "WEFAC\n" ++ (well_name ++ " ") ++ (efficiency_factor ++ " ") ++
    argTok apply_to_network ++ "/\n" ++ "/\n\n"

/-- `perf_out` of `kwriter.py`: the COMPDATMD keyword text.
Argument order: well_name, branch_num, lower_depth, upper_depth,
depth_type, status, sat_num, trans_factor, well_diam, effective_kh, skin,
d_factor, connection_factor_mult, completion_type.  `skin` and
`connection_factor_mult` have non-`None` numeric defaults and are plain
`String`s here. -/
def perf_out (well_name : String)
    (branch_num lower_depth upper_depth depth_type status sat_num
      trans_factor well_diam effective_kh : Option String)
    (skin : String) (d_factor : Option String)
    (connection_factor_mult : String) (completion_type : Option String) :
    String :=
  "COMPDATMD\n" ++ (well_name ++ " ") ++ argTok branch_num ++
    argTok lower_depth ++ argTok upper_depth ++ argTok depth_type ++
    argTok status ++ argTok sat_num ++ argTok trans_factor ++
    argTok well_diam ++ argTok effective_kh ++ (skin ++ " ") ++
    argTok d_factor ++ (connection_factor_mult ++ " ") ++
    argTok completion_type ++ "/\n" ++ "/\n\n"

/-- `generic_kw_out` of `kwriter.py`: a verbatim keyword with a literal
argument string. -/
def generic_kw_out (keyword args : String) : String :=
  keyword ++ "\n" ++ args ++ "\n/\n\n"

/-! ## Timeline Normalizer (`main_sch.py` preprocessing)

Periods are calendar months; a month is encoded as its absolute month
index `12 * year + (month - 1)`, so that the order of month indices is
the calendar order of month-start dates.  The walker's timesteps
(`pd.date_range(start, end, freq='1MS')`) are consecutive month starts,
encoded as consecutive month indices. -/

/-- `calendar.isleap`. -/
def isLeap (y : Nat) : Bool :=
  y % 4 = 0 && (y % 100 ≠ 0 || y % 400 = 0)

/-- `calendar.monthrange(y, m)[1]`: the day-count of a calendar month. -/
def daysInMonth (y m : Nat) : Nat :=
  match m with
  | 1 => 31
  | 2 => if isLeap y then 29 else 28
  | 3 => 31
  | 4 => 30
  | 5 => 31
  | 6 => 30
  | 7 => 31
  | 8 => 31
  | 9 => 30
  | 10 => 31
  | 11 => 30
  | 12 => 31
  | _ => 0

/-- Absolute month index of a calendar month. -/
def monthIdx (y m : Nat) : Nat :=
  12 * y + (m - 1)

/-- A raw production-history row (columns used by the compiler), with its
`DATE` already parsed into year and month of a month-start date. -/
structure RawProdRow where
  well : String
  year : Nat
  month : Nat
  oil : ℚ
  water : ℚ
  gas : ℚ
  winj : ℚ
  days : ℚ
  bhp : ℚ
  thp : ℚ
deriving DecidableEq

/-- A normalized production fact: per-day rates, days-on-production and
the month length, as produced by `preprocess_prod`. -/
structure ProdRow where
  well : String
  date : Nat
  oil : ℚ
  water : ℚ
  gas : ℚ
  winj : ℚ
  days : ℚ
  monthLength : ℚ
  bhp : ℚ
  thp : ℚ
deriving DecidableEq

/-- `preprocess_prod` of `main_sch.py`: divide the reported OIL/WATER/GAS/WINJ
volumes by DAYS and record the calendar day-count of the row's month. -/
def preprocess_prod (r : RawProdRow) : ProdRow :=
  { well := r.well
    date := monthIdx r.year r.month
    oil := r.oil / r.days
    water := r.water / r.days
    gas := r.gas / r.days
    winj := r.winj / r.days
    days := r.days
    monthLength := (daysInMonth r.year r.month : ℚ)
    bhp := r.bhp
    thp := r.thp }

/-- A normalized perforation fact: date floored to a month start
(`preprocess_perf`), interval bounds, and the open/shut flag derived from
the completion-type text. -/
structure PerfRow where
  well : String
  date : Nat
  lower : ℚ
  upper : ℚ
  perfFlag : Bool
deriving DecidableEq

/-- A manual-operation fact: a verbatim keyword and argument string for a
month. -/
structure OpRow where
  date : Nat
  kw : String
  args : String
deriving DecidableEq

/-! ## Record Model

One constructor per keyword emission in the `main_sch.py` walker, holding
exactly the arguments the walker passes to the corresponding
`kwriter` function.  Pressure arguments are `Option ℚ` because the walker
passes the wildcard instead of the value when the source pressure is ≤ 0. -/

inductive Rec where
  | dates (t : Nat)
  | wconprodh (well status control : String) (oil water gas : Option ℚ)
      (thp bhp : Option ℚ)
  | wconinjh (well fluid status : String) (rate : Option ℚ)
      (bhp thp : Option ℚ) (control : String)
  | wefac (well : String) (factor : ℚ)
  | compdatmd (well : String) (lower upper : ℚ) (status : String)
  | generic (kw args : String)
deriving DecidableEq

/-- Pressure wildcarding of the walker:
`row['BHP'] if row['BHP'] > 0 else '*'`. -/
def presOpt (q : ℚ) : Option ℚ :=
  if 0 < q then some q else none

/-- The COMPDATMD record the walker emits for one perforation fact
(`status='OPEN' if row['perf_flag'] else 'SHUT'`). -/
def perfRec (r : PerfRow) : Rec :=
  .compdatmd r.well r.lower r.upper (if r.perfFlag then "OPEN" else "SHUT")

/-- The records the walker emits for one production row: an injection
control if `WINJ > 0`, a production control if `OIL > 0`, and an
efficiency factor if either control was emitted
(`write_weff`). -/
def prodRecs (r : ProdRow) : List Rec :=
  (if 0 < r.winj then
    [Rec.wconinjh r.well "WATER" "OPEN" (some r.winj) (presOpt r.bhp)
      (presOpt r.thp) "RATE"]
  else []) ++
  (if 0 < r.oil then
    [Rec.wconprodh r.well "OPEN" "LRAT" (some r.oil) (some r.water)
      (some r.gas) (presOpt r.thp) (presOpt r.bhp)]
  else []) ++
  (if 0 < r.winj ∨ 0 < r.oil then
    [Rec.wefac r.well (r.days / r.monthLength)]
  else [])

/-- The three wildcard-entity reset records emitted at the top of every
non-initial period. -/
def resets : List Rec :=
  [Rec.wconprodh "*" "SHUT" "LRAT" none none none none none,
   Rec.wconinjh "*" "WATER" "SHUT" none none none "RATE",
   Rec.wefac "*" 1]

/-- The normalized source tables the walker iterates over. -/
structure Tables where
  production : List ProdRow
  perf : List PerfRow
  manops : List OpRow
deriving DecidableEq

/-- The entity-specific records of one period: the current perforation
slice, the production-control loop and the manual-operation slice, in the
walker's emission order. -/
def entityPart (tb : Tables) (t : Nat) : List Rec :=
  (tb.perf.filter (fun r => r.date == t)).map perfRec ++
  ((tb.production.filter (fun r => r.date == t)).map prodRecs).flatten ++
  (tb.manops.filter (fun r => r.date == t)).map (fun r => Rec.generic r.kw r.args)

/-- One period of the walker: the records emitted for timestep `t`.
`first` is the `first_month_flag` state. -/
def stepOut (tb : Tables) (first : Bool) (t : Nat) : List Rec :=
  (if first then (tb.perf.filter (fun r => r.date < t)).map perfRec else []) ++
  (if first then [] else Rec.dates t :: resets) ++
  entityPart tb t

/-- The full walker: timesteps are the `n` consecutive month starts
beginning at month `t0`; the first iteration runs with
`first_month_flag` set and every later one with it cleared. -/
def walk (tb : Tables) (t0 n : Nat) : List Rec :=
  ((List.range n).map (fun i => stepOut tb (i == 0) (t0 + i))).flatten

/-! ## Perforation cross-reference merge and the orphan check (`main_sch.py`)

The perforation table is right-merged against the well cross-reference
table `well_table.csv` (`left_on='Скважина'`, `right_on='Скважина в МЭР'`):
every cross-reference row is kept; perforation rows with no matching
cross-reference row are dropped; a cross-reference row with no matching
perforation row yields one merged row whose perforation-side columns are
missing.  After the field filter, the script asserts that at most one
merged row has a missing perforation-side well name, then opens the
output file and runs the walker. -/

/-- A row of the well cross-reference table `well_table.csv`. -/
structure XrefRow where
  mer : String
  model : String
  zone : String
deriving DecidableEq

/-- A raw perforation row (columns used by the compiler), date already
floored to its month index and the open/shut flag already derived. -/
structure RawPerfRow where
  well : String
  date : Nat
  lower : ℚ
  upper : ℚ
  perfFlag : Bool
deriving DecidableEq

/-- A merged perforation row: the perforation side is `none` for a
cross-reference entity with no matching perforation row. -/
structure MergedPerfRow where
  perf : Option RawPerfRow
  model : String
  zone : String
deriving DecidableEq

/-- The pandas right merge of the perforation table against the
cross-reference table. -/
def perfMerge (raw : List RawPerfRow) (xref : List XrefRow) :
    List MergedPerfRow :=
  (xref.map (fun x =>
    match raw.filter (fun p => p.well == x.mer) with
    | [] => [MergedPerfRow.mk none x.model x.zone]
    | ms => ms.map (fun p => MergedPerfRow.mk (some p) x.model x.zone))).flatten

/-- The field-filtered merged perforation table. -/
def perfFiltered (raw : List RawPerfRow) (xref : List XrefRow)
    (zone : String) : List MergedPerfRow :=
  (perfMerge raw xref).filter (fun r => r.zone == zone)

/-- The merged rows whose perforation-side well name is missing
(`perf[perf['Скважина'].isna()]`). -/
def perfOrphans (raw : List RawPerfRow) (xref : List XrefRow)
    (zone : String) : List MergedPerfRow :=
  (perfFiltered raw xref zone).filter (fun r => r.perf.isNone)

/-- The walker's perforation table built from the merged rows: the model
well name together with the perforation-side data.  Rows with a missing
perforation side never satisfy the walker's date comparisons in pandas
(`NaN` compares false), so they are dropped here. -/
def perfTable (raw : List RawPerfRow) (xref : List XrefRow)
    (zone : String) : List PerfRow :=
  (perfFiltered raw xref zone).filterMap (fun r =>
    r.perf.map (fun p => PerfRow.mk r.model p.date p.lower p.upper p.perfFlag))

/-- The compilation run of `main_sch.py` from the normalized inputs: the
orphan assertion runs before the output file is opened, so a failing
assertion produces no output at all. -/
def compileRun (raw : List RawPerfRow) (xref : List XrefRow)
    (production : List ProdRow) (ops : List OpRow) (zone : String)
    (t0 n : Nat) : Except String (List Rec) :=
  if (perfOrphans raw xref zone).length ≤ 1 then
    .ok (walk (Tables.mk production (perfTable raw xref zone) ops) t0 n)
  else
    .error "Wells have no perforations"

/-! ## Trajectory Compiler (`welltracks.py`)

A joined trajectory row carries the model well name, the pad identifier
and the four coordinate columns (as the strings that are interpolated
into the output).  For each model well name in first-seen order the
script asserts the well's slice has more than one row, then emits one
WELSPECS keyword (pad from the first row of the slice, `phase` at its
default `LIQ`, every nullable argument left `None`) and one WELLTRACK
keyword whose coordinate tuples are the slice's
`(Координата X, Координата Y, MD, Z)` columns in row order. -/

structure TrajRow where
  model : String
  pad : String
  x : String
  y : String
  md : String
  z : String
deriving DecidableEq

/-- The slice of the joined table for one model well name. -/
def trajSlice (rows : List TrajRow) (w : String) : List TrajRow :=
  rows.filter (fun r => r.model == w)

/-- `df['Название в модели'].unique()`: the model names in first-seen
order, each exactly once. -/
def firstSeen : List TrajRow → List String
  | [] => []
  | r :: rs => r.model :: (firstSeen rs).filter (fun w => ¬ w = r.model)

/-- Processing of one well of the `welltracks.py` loop: the assertion,
then the WELSPECS and WELLTRACK keyword strings. -/
def trackOne (rows : List TrajRow) (w : String) : Except String (List String) :=
  match trajSlice rows w with
  | [] => .error "Welltrack is missing"
  | [_] => .error "Welltrack is missing"
  | r :: rs =>
    .ok [specs_out w (some r.pad) none none none "LIQ" none none none none
            none none none,
         traj_out w ((r :: rs).map (fun p => (p.x, p.y, p.md, p.z)))]

/-- The full `welltracks.py` run: process each well in first-seen order,
aborting at the first failing assertion (records written before the
abort are part of the emitted prefix). -/
def welltracksGo (rows : List TrajRow) : List String → List String × Bool
  | [] => ([], true)
  | w :: ws =>
    match trackOne rows w with
    | .error _ => ([], false)
    | .ok out =>
      match welltracksGo rows ws with
      | (rest, ok) => (out ++ rest, ok)

def welltracksRun (rows : List TrajRow) : List String × Bool :=
  welltracksGo rows (firstSeen rows)

/-- The DATES keyword strings produced by a walker run: the walker passes
`timestep.date()` — a `datetime.date` — for each date-stamp record, whose
calendar month is recovered from the month index (the day of a timestep
is always 1, month starts only). -/
def walkDatesStrings (tb : Tables) (t0 n : Nat) : List String :=
  (walk tb t0 n).filterMap (fun r =>
    match r with
    | Rec.dates t => some (dates_out (.d (t / 12) (t % 12 + 1) 1))
    | _ => none)

/-! ## Helper lemmas -/

theorem string_append_empty (s : String) : s ++ "" = s := by
  cases s with
  | mk l =>
    show String.mk (l ++ []) = String.mk l
    rw [List.append_nil]

theorem string_ext (a b : String) (h : a.data = b.data) : a = b := by
  cases a
  cases b
  cases h
  rfl

/-- The wildcard substitution at token level: Python's
`str(val) if val is not None else '*'`. -/
def optTok (v : Option String) : String :=
  match v with
  | none => "*"
  | some s => s

theorem argTok_eq (v : Option String) : argTok v = optTok v ++ " " := by
  cases v <;> rfl

/-- A well-formed positional token: nonempty, containing neither a space
nor a newline.  The stringified numeric and symbolic keyword arguments of
the generator all satisfy this. -/
def goodTok (s : String) : Prop :=
  ¬ s.data = [] ∧ ' ' ∉ s.data ∧ '\n' ∉ s.data

instance goodTok.dec : DecidablePred goodTok := fun s => by
  unfold goodTok
  infer_instance

/-- The character data of a sequence of space-terminated token chunks, as
the emitter loops build it. -/
def chunkData : List String → List Char
  | [] => []
  | t :: ts => t.data ++ ' ' :: chunkData ts

/-- The lines of a character list. -/
def dataLines (l : List Char) : List String :=
  (splitCh '\n' l).map String.mk

theorem lineList_eq_dataLines (s : String) : lineList s = dataLines s.data := rfl

theorem dataLines_cons (A B : List Char) (h : '\n' ∉ A) :
    dataLines (A ++ '\n' :: B) = String.mk A :: dataLines B := by
  unfold dataLines
  rw [splitCh_append_cons _ _ _ h]
  rfl

theorem chunkData_no_mem (c : Char) (ts : List String)
    (hc : ¬ c = ' ') (h : ∀ t ∈ ts, c ∉ t.data) :
    c ∉ chunkData ts := by
  induction ts with
  | nil => simp [chunkData]
  | cons t ts ih =>
    simp only [chunkData, List.mem_append, List.mem_cons, not_or]
    exact ⟨h t (by simp), hc, ih (fun u hu => h u (by simp [hu]))⟩

theorem tokList_chunk (ts : List String) (tail : List Char)
    (h : ∀ t ∈ ts, goodTok t) :
    ((splitCh ' ' (chunkData ts ++ tail)).filter (fun w => ¬ w = [])).map
        String.mk
      = ts ++ ((splitCh ' ' tail).filter (fun w => ¬ w = [])).map String.mk := by
  induction ts with
  | nil => simp [chunkData]
  | cons t ts ih =>
    have hg := h t (by simp)
    have : chunkData (t :: ts) ++ tail = t.data ++ ' ' :: (chunkData ts ++ tail) := by
      simp [chunkData]
    rw [this, tokSplit_cons t.data _ hg.1 hg.2.1, string_mk_data,
      ih (fun u hu => h u (by simp [hu]))]
    rfl

/-- Token list of the argument line `t1 t2 ... tn /` built from
space-terminated chunks followed by the line-terminating slash. -/
theorem tokList_argsLine (ts : List String) (h : ∀ t ∈ ts, goodTok t) :
    tokList (String.mk (chunkData ts ++ ['/'])) = ts ++ ["/"] := by
  show ((splitCh ' ' (chunkData ts ++ ['/'])).filter
      (fun w => ¬ w = [])).map String.mk = ts ++ ["/"]
  rw [tokList_chunk ts ['/'] h]
  rfl

/-- Line decomposition of a single-line control keyword as the emitters
build it: keyword line, token line terminated by a slash, one standalone
slash line, one blank line (and the empty chunk after the final
newline). -/
theorem ctrlLines (kw : String) (ts : List String) (hkw : '\n' ∉ kw.data)
    (h : ∀ t ∈ ts, goodTok t) :
    dataLines (kw.data ++ '\n' ::
        (chunkData ts ++ '/' :: '\n' :: '/' :: '\n' :: '\n' :: []))
      = [kw, String.mk (chunkData ts ++ ['/']), "/", "", ""] := by
  rw [dataLines_cons kw.data _ hkw, string_mk_data]
  have hsplit : chunkData ts ++ '/' :: '\n' :: '/' :: '\n' :: '\n' :: []
      = (chunkData ts ++ ['/']) ++ '\n' :: ('/' :: '\n' :: '\n' :: []) := by
    simp
  rw [hsplit, dataLines_cons (chunkData ts ++ ['/']) _ ?nnl]
  case nnl =>
    simp only [List.mem_append, not_or]
    refine ⟨chunkData_no_mem '\n' ts (by decide)
      (fun t ht => (h t ht).2.2), by decide⟩
  have : dataLines ('/' :: '\n' :: '\n' :: []) = ["/", "", ""] := by decide
  rw [this]

theorem dataSpace : (" " : String).data = [' '] := rfl

theorem dataWCONHISTnl :
    ("WCONHIST\n" : String).data = ("WCONHIST" : String).data ++ ['\n'] := rfl

theorem dataCOMPDATMDnl :
    ("COMPDATMD\n" : String).data = ("COMPDATMD" : String).data ++ ['\n'] := rfl

theorem dataWELSPECSnl :
    ("WELSPECS\n" : String).data = ("WELSPECS" : String).data ++ ['\n'] := rfl

theorem dataSlashNl : ("/\n" : String).data = ['/', '\n'] := rfl

theorem dataSlashNlNl : ("/\n\n" : String).data = ['/', '\n', '\n'] := rfl

/-- Character data of the WCONHIST keyword text: keyword line, the twelve
space-terminated positional chunks, the slash ending the argument line,
the standalone slash line and the final blank line. -/
theorem wconprodh_out_data (w s c : String)
    (o wa g vf al th bh we ng : Option String) :
    (wconprodh_out w s c o wa g vf al th bh we ng).data =
      ("WCONHIST" : String).data ++ '\n' ::
        (chunkData [w, s, c, optTok o, optTok wa, optTok g, optTok vf,
            optTok al, optTok th, optTok bh, optTok we, optTok ng] ++
          '/' :: '\n' :: '/' :: '\n' :: '\n' :: []) := by
  simp [wconprodh_out, argTok_eq, chunkData, string_data_append,
    dataWCONHISTnl, dataSpace, dataSlashNl, dataSlashNlNl,
    List.append_assoc]

/-- Character data of the COMPDATMD keyword text. -/
theorem perf_out_data (pw : String)
    (pb pl pu pd ps psat ptr pwd pkh : Option String) (pskin : String)
    (pdf : Option String) (pm : String) (pct : Option String) :
    (perf_out pw pb pl pu pd ps psat ptr pwd pkh pskin pdf pm pct).data =
      ("COMPDATMD" : String).data ++ '\n' ::
        (chunkData [pw, optTok pb, optTok pl, optTok pu, optTok pd,
            optTok ps, optTok psat, optTok ptr, optTok pwd, optTok pkh,
            pskin, optTok pdf, pm, optTok pct] ++
          '/' :: '\n' :: '/' :: '\n' :: '\n' :: []) := by
  simp [perf_out, argTok_eq, chunkData, string_data_append,
    dataCOMPDATMDnl, dataSpace, dataSlashNl, dataSlashNlNl,
    List.append_assoc]

/-- Character data of the WELSPECS keyword text. -/
theorem specs_out_data (w : String) (pad cx cy rd : Option String)
    (phase : String) (dr si eco cf ptn dct fip : Option String) :
    (specs_out w pad cx cy rd phase dr si eco cf ptn dct fip).data =
      ("WELSPECS" : String).data ++ '\n' ::
        (chunkData [w, optTok pad, optTok cx, optTok cy, optTok rd, phase,
            optTok dr, optTok si, optTok eco, optTok cf, optTok ptn,
            optTok dct, optTok fip] ++
          '/' :: '\n' :: '/' :: '\n' :: '\n' :: []) := by
  simp [specs_out, argTok_eq, chunkData, string_data_append,
    dataWELSPECSnl, dataSpace, dataSlashNl, dataSlashNlNl,
    List.append_assoc]

/-! ## Claim theorems -/

/-- Recognizer for date-stamp records. -/
def isDatesRec : Rec → Bool
  | .dates _ => true
  | _ => false

/-- Recognizer for the production-control and efficiency-factor records
of a given entity. -/
def prodCtlOrWefacFor (e : String) : Rec → Bool
  | .wconprodh w _ _ _ _ _ _ _ => w == e
  | .wefac w _ => w == e
  | _ => false

theorem flatten_decomp {α : Type} (f : Nat → List α) :
    ∀ n i : Nat, i < n →
      ∃ pre post, ((List.range n).map f).flatten = pre ++ f i ++ post := by
  intro n
  induction n with
  | zero =>
    intro i h
    omega
  | succ m ih =>
    intro i h
    rw [List.range_succ, List.map_append, List.flatten_append]
    rcases Nat.lt_or_ge i m with hlt | hge
    · obtain ⟨pre, post, hp⟩ := ih i hlt
      refine ⟨pre, post ++ ([f m] : List (List α)).flatten, ?_⟩
      rw [hp]
      simp
    · have him : i = m := by omega
      subst him
      exact ⟨((List.range i).map f).flatten, [], by simp⟩

/-- Every record the production loop emits for one row is the row's
injection control, production control or efficiency record. -/
theorem prodRecs_mem (r : ProdRow) (x : Rec) (h : x ∈ prodRecs r) :
    x = Rec.wconinjh r.well "WATER" "OPEN" (some r.winj) (presOpt r.bhp)
        (presOpt r.thp) "RATE" ∨
    x = Rec.wconprodh r.well "OPEN" "LRAT" (some r.oil) (some r.water)
        (some r.gas) (presOpt r.thp) (presOpt r.bhp) ∨
    x = Rec.wefac r.well (r.days / r.monthLength) := by
  by_cases hw : 0 < r.winj <;> by_cases ho : 0 < r.oil <;>
    simp [prodRecs, hw, ho] at h <;> tauto

/-- The entity-specific part of a period contains no date-stamp record
and, when no production row uses the reserved wildcard well name, none of
the three reset records. -/
theorem entityPart_clean (tb : Tables) (t : Nat)
    (hw : ∀ r ∈ tb.production, ¬ r.well = "*") :
    ∀ x ∈ entityPart tb t, isDatesRec x = false ∧ x ∉ resets := by
  intro x hx
  unfold entityPart at hx
  rcases List.mem_append.mp hx with h12 | h3
  · rcases List.mem_append.mp h12 with h1 | h2
    · rcases List.mem_map.mp h1 with ⟨p, _, hpx⟩
      subst hpx
      exact ⟨rfl, by simp [perfRec, resets]⟩
    · rcases List.mem_flatten.mp h2 with ⟨l, hl, hxl⟩
      rcases List.mem_map.mp hl with ⟨p, hps, hpl⟩
      subst hpl
      have hpw : ¬ p.well = "*" := hw p (List.mem_filter.mp hps).1
      rcases prodRecs_mem p x hxl with he | he | he <;> subst he
      · exact ⟨rfl, by simp [resets]⟩
      · exact ⟨rfl, by simp [resets]⟩
      · exact ⟨rfl, by simp [resets, hpw]⟩
  · rcases List.mem_map.mp h3 with ⟨p, _, hpx⟩
    subst hpx
    exact ⟨rfl, by simp [resets]⟩

/-- Claim C2 counterexample: for a concrete WCONHIST record the emitted
text has exactly one line containing only `/`, not two: the first slash
terminator sits at the end of the argument-token line itself. -/
theorem claim_c2_cex :
    lineList (wconprodh_out "W1" "SHUT" "LRAT" none none none none none
        none none none none)
      = ["WCONHIST", "W1 SHUT LRAT * * * * * * * * * /", "/", "", ""] ∧
    (lineList (wconprodh_out "W1" "SHUT" "LRAT" none none none none none
        none none none none)).count "/" = 1 := by
  constructor
  · decide
  · decide

/-- Claim C2 (amended): every serialized single-line control Record is a
keyword-name line, then a space-joined sequence of positional tokens with
`*` substituted for every unset optional field (positions never omitted)
whose final token, on the same line, is the terminating `/`, followed by
ONE line containing only `/`, followed by a blank line.  Shown for the
WCONHIST and COMPDATMD emitters. -/
theorem claim_c2 (w s c : String) (o wa g vf al th bh we ng : Option String)
    (h1 : ∀ t ∈ [w, s, c, optTok o, optTok wa, optTok g, optTok vf,
        optTok al, optTok th, optTok bh, optTok we, optTok ng], goodTok t)
    (pw : String) (pb pl pu pd ps psat ptr pwd pkh : Option String)
    (pskin : String) (pdf : Option String) (pm : String)
    (pct : Option String)
    (h2 : ∀ t ∈ [pw, optTok pb, optTok pl, optTok pu, optTok pd, optTok ps,
        optTok psat, optTok ptr, optTok pwd, optTok pkh, pskin, optTok pdf,
        pm, optTok pct], goodTok t) :
    (∃ line,
      lineList (wconprodh_out w s c o wa g vf al th bh we ng)
        = ["WCONHIST", line, "/", "", ""] ∧
      tokList line = [w, s, c, optTok o, optTok wa, optTok g, optTok vf,
        optTok al, optTok th, optTok bh, optTok we, optTok ng] ++ ["/"]) ∧
    (∃ line,
      lineList (perf_out pw pb pl pu pd ps psat ptr pwd pkh pskin pdf pm pct)
        = ["COMPDATMD", line, "/", "", ""] ∧
      tokList line = [pw, optTok pb, optTok pl, optTok pu, optTok pd,
        optTok ps, optTok psat, optTok ptr, optTok pwd, optTok pkh, pskin,
        optTok pdf, pm, optTok pct] ++ ["/"]) := by
  constructor
  · refine ⟨String.mk (chunkData [w, s, c, optTok o, optTok wa, optTok g,
      optTok vf, optTok al, optTok th, optTok bh, optTok we, optTok ng] ++
        ['/']), ?_, tokList_argsLine _ h1⟩
    rw [lineList_eq_dataLines, wconprodh_out_data]
    exact ctrlLines "WCONHIST" _ (by decide) h1
  · refine ⟨String.mk (chunkData [pw, optTok pb, optTok pl, optTok pu,
      optTok pd, optTok ps, optTok psat, optTok ptr, optTok pwd, optTok pkh,
      pskin, optTok pdf, pm, optTok pct] ++ ['/']), ?_,
      tokList_argsLine _ h2⟩
    rw [lineList_eq_dataLines, perf_out_data]
    exact ctrlLines "COMPDATMD" _ (by decide) h2

/-- Claim C2 witness: the amended statement at a concrete WCONHIST record
and a concrete COMPDATMD record. -/
theorem claim_c2_wit :
    (∃ line,
      lineList (wconprodh_out "W1" "OPEN" "LRAT" (some "5.0") (some "0.0")
          (some "2.5") none none none (some "150") none none)
        = ["WCONHIST", line, "/", "", ""] ∧
      tokList line = ["W1", "OPEN", "LRAT", "5.0", "0.0", "2.5", "*", "*",
        "*", "150", "*", "*"] ++ ["/"]) ∧
    (∃ line,
      lineList (perf_out "W2" none (some "2500.0") (some "2600.0")
          (some "MD") (some "OPEN") none none (some "0.16") none "0" none
          "1" none)
        = ["COMPDATMD", line, "/", "", ""] ∧
      tokList line = ["W2", "*", "2500.0", "2600.0", "MD", "OPEN", "*",
        "*", "0.16", "*", "0", "*", "1", "*"] ++ ["/"]) :=
  claim_c2 "W1" "OPEN" "LRAT" (some "5.0") (some "0.0") (some "2.5") none
    none none (some "150") none none (by decide)
    "W2" none (some "2500.0") (some "2600.0") (some "MD") (some "OPEN")
    none none (some "0.16") none "0" none "1" none (by decide)

/-- Claim C9: with all optional fields set (to tokens that are not
themselves the wildcard) the emitted argument line contains zero `*`
tokens, and with all optional fields unset every optional position of the
emitted line is `*`.  Shown for the WCONHIST and WELSPECS emitters
(optional = nullable; WELSPECS `phase` has the non-null default `LIQ` and
is always set). -/
theorem claim_c9
    (w s c o wa g vf al th bh we ng : String)
    (h1 : ∀ t ∈ [w, s, c, o, wa, g, vf, al, th, bh, we, ng],
      goodTok t ∧ ¬ t = "*")
    (sw pad cx cy rd phase dr si eco cf ptn dct fip : String)
    (h2 : ∀ t ∈ [sw, pad, cx, cy, rd, phase, dr, si, eco, cf, ptn, dct,
      fip], goodTok t ∧ ¬ t = "*")
    (uw us uc : String) (h3 : ∀ t ∈ [uw, us, uc], goodTok t)
    (vw vphase : String) (h4 : ∀ t ∈ [vw, vphase], goodTok t) :
    (∃ line,
      lineList (wconprodh_out w s c (some o) (some wa) (some g) (some vf)
          (some al) (some th) (some bh) (some we) (some ng))
        = ["WCONHIST", line, "/", "", ""] ∧
      (tokList line).count "*" = 0) ∧
    (∃ line,
      lineList (specs_out sw (some pad) (some cx) (some cy) (some rd)
          phase (some dr) (some si) (some eco) (some cf) (some ptn)
          (some dct) (some fip))
        = ["WELSPECS", line, "/", "", ""] ∧
      (tokList line).count "*" = 0) ∧
    (∃ line,
      lineList (wconprodh_out uw us uc none none none none none none none
          none none)
        = ["WCONHIST", line, "/", "", ""] ∧
      tokList line = [uw, us, uc, "*", "*", "*", "*", "*", "*", "*", "*",
        "*", "/"]) ∧
    (∃ line,
      lineList (specs_out vw none none none none vphase none none none
          none none none none)
        = ["WELSPECS", line, "/", "", ""] ∧
      tokList line = [vw, "*", "*", "*", "*", vphase, "*", "*", "*", "*",
        "*", "*", "*", "/"]) := by
  refine ⟨?_, ?_, ?_, ?_⟩
  · refine ⟨String.mk (chunkData [w, s, c, o, wa, g, vf, al, th, bh, we,
      ng] ++ ['/']), ?_, ?_⟩
    · rw [lineList_eq_dataLines, wconprodh_out_data]
      exact ctrlLines "WCONHIST" _ (by decide)
        (fun t ht => (h1 t ht).1)
    · rw [tokList_argsLine _ (fun t ht => (h1 t ht).1)]
      refine List.count_eq_zero.mpr ?_
      intro hmem
      rcases List.mem_append.mp hmem with hl | hr
      · exact (h1 _ hl).2 rfl
      · simp at hr
  · refine ⟨String.mk (chunkData [sw, pad, cx, cy, rd, phase, dr, si, eco,
      cf, ptn, dct, fip] ++ ['/']), ?_, ?_⟩
    · rw [lineList_eq_dataLines, specs_out_data]
      exact ctrlLines "WELSPECS" _ (by decide)
        (fun t ht => (h2 t ht).1)
    · rw [tokList_argsLine _ (fun t ht => (h2 t ht).1)]
      refine List.count_eq_zero.mpr ?_
      intro hmem
      rcases List.mem_append.mp hmem with hl | hr
      · exact (h2 _ hl).2 rfl
      · simp at hr
  · have hgood : ∀ t ∈ [uw, us, uc, "*", "*", "*", "*", "*", "*", "*", "*",
        "*"], goodTok t := by
      intro t ht
      simp only [List.mem_cons] at ht
      rcases ht with h | h | h | h
      · exact h ▸ h3 uw (by simp)
      · exact h ▸ h3 us (by simp)
      · exact h ▸ h3 uc (by simp)
      · have ht2 : t = "*" := by
          simpa using h
        exact ht2 ▸ (by decide)
    refine ⟨String.mk (chunkData [uw, us, uc, "*", "*", "*", "*", "*", "*",
      "*", "*", "*"] ++ ['/']), ?_, ?_⟩
    · rw [lineList_eq_dataLines, wconprodh_out_data]
      exact ctrlLines "WCONHIST" _ (by decide) hgood
    · rw [tokList_argsLine _ hgood]
      simp
  · have hgood : ∀ t ∈ [vw, "*", "*", "*", "*", vphase, "*", "*", "*", "*",
        "*", "*", "*"], goodTok t := by
      intro t ht
      simp only [List.mem_cons] at ht
      rcases ht with h | h | h | h | h | h | h
      · exact h ▸ h4 vw (by simp)
      · exact h ▸ (by decide)
      · exact h ▸ (by decide)
      · exact h ▸ (by decide)
      · exact h ▸ (by decide)
      · exact h ▸ h4 vphase (by simp)
      · have ht2 : t = "*" := by
          simpa using h
        exact ht2 ▸ (by decide)
    refine ⟨String.mk (chunkData [vw, "*", "*", "*", "*", vphase, "*", "*",
      "*", "*", "*", "*", "*"] ++ ['/']), ?_, ?_⟩
    · rw [lineList_eq_dataLines, specs_out_data]
      exact ctrlLines "WELSPECS" _ (by decide) hgood
    · rw [tokList_argsLine _ hgood]
      simp

/-- Claim C9 witness: the statement at concrete all-set and all-unset
records. -/
theorem claim_c9_wit :
    (∃ line,
      lineList (wconprodh_out "W1" "OPEN" "LRAT" (some "5.0") (some "1.0")
          (some "2.5") (some "2") (some "3") (some "140") (some "150")
          (some "0.1") (some "0.2"))
        = ["WCONHIST", line, "/", "", ""] ∧
      (tokList line).count "*" = 0) ∧
    (∃ line,
      lineList (specs_out "W1" (some "PAD1") (some "100.0") (some "200.0")
          (some "2500") "LIQ" (some "50") (some "STD") (some "ECO")
          (some "YES") (some "1") (some "SEG") (some "2"))
        = ["WELSPECS", line, "/", "", ""] ∧
      (tokList line).count "*" = 0) ∧
    (∃ line,
      lineList (wconprodh_out "W3" "SHUT" "LRAT" none none none none none
          none none none none)
        = ["WCONHIST", line, "/", "", ""] ∧
      tokList line = ["W3", "SHUT", "LRAT", "*", "*", "*", "*", "*", "*",
        "*", "*", "*", "/"]) ∧
    (∃ line,
      lineList (specs_out "W4" none none none none "LIQ" none none none
          none none none none)
        = ["WELSPECS", line, "/", "", ""] ∧
      tokList line = ["W4", "*", "*", "*", "*", "LIQ", "*", "*", "*", "*",
        "*", "*", "*", "/"]) :=
  claim_c9 "W1" "OPEN" "LRAT" "5.0" "1.0" "2.5" "2" "3" "140" "150" "0.1"
    "0.2" (by decide)
    "W1" "PAD1" "100.0" "200.0" "2500" "LIQ" "50" "STD" "ECO" "YES" "1"
    "SEG" "2" (by decide)
    "W3" "SHUT" "LRAT" (by decide)
    "W4" "LIQ" (by decide)

/-- A WELLTRACK coordinate line without its terminating newline. -/
def pointLine (p : String × String × String × String) : String :=
  match p with
  | (coord_x, coord_y, md, coord_z) =>
      coord_x ++ " " ++ coord_y ++ " " ++ coord_z ++ " " ++ md ++ " "

/-- Well-formedness of one trajectory point's coordinate tokens. -/
def goodPoint (p : String × String × String × String) : Prop :=
  goodTok p.1 ∧ goodTok p.2.1 ∧ goodTok p.2.2.1 ∧ goodTok p.2.2.2

theorem pointLine_data (p : String × String × String × String) :
    (pointLine p).data = chunkData [p.1, p.2.1, p.2.2.2, p.2.2.1] := by
  rcases p with ⟨x, y, md, z⟩
  simp [pointLine, chunkData, string_data_append, dataSpace,
    List.append_assoc]

theorem coordLine_data (p : String × String × String × String) :
    (coordLine p).data = (pointLine p).data ++ ['\n'] := by
  rcases p with ⟨x, y, md, z⟩
  have hsp : (" \n" : String).data = [' ', '\n'] := rfl
  simp [coordLine, pointLine, string_data_append, dataSpace, hsp,
    List.append_assoc]

theorem pointLine_no_nl (p : String × String × String × String)
    (h : goodPoint p) : '\n' ∉ (pointLine p).data := by
  rw [pointLine_data]
  exact chunkData_no_mem '\n' _ (by decide)
    (by
      intro t ht
      simp only [List.mem_cons] at ht
      rcases ht with h1 | h1 | h1 | h1
      · exact h1 ▸ h.1.2.2
      · exact h1 ▸ h.2.1.2.2
      · exact h1 ▸ h.2.2.2.2.2
      · rcases h1 with h1 | h1
        · exact h1 ▸ h.2.2.1.2.2
        · simp at h1)

theorem tokList_pointLine (p : String × String × String × String)
    (h : goodPoint p) :
    tokList (pointLine p) = [p.1, p.2.1, p.2.2.2, p.2.2.1] := by
  have hd : tokList (pointLine p)
      = ((splitCh ' ' (chunkData [p.1, p.2.1, p.2.2.2, p.2.2.1] ++ [])).filter
          (fun u => ¬ u = [])).map String.mk := by
    show ((splitCh ' ' (pointLine p).data).filter (fun u => ¬ u = [])).map
        String.mk = _
    rw [pointLine_data]
    simp
  rw [hd, tokList_chunk]
  · rfl
  · intro t ht
    simp only [List.mem_cons] at ht
    rcases ht with h1 | h1 | h1 | h1
    · exact h1 ▸ h.1
    · exact h1 ▸ h.2.1
    · exact h1 ▸ h.2.2.2
    · rcases h1 with h1 | h1
      · exact h1 ▸ h.2.2.1
      · simp at h1

/-- Line decomposition of the coordinate block plus the WELLTRACK
footer. -/
theorem coordAll_lines (pts : List (String × String × String × String))
    (h : ∀ p ∈ pts, goodPoint p) :
    dataLines ((coordAll pts).data ++ '/' :: '\n' :: '\n' :: [])
      = pts.map pointLine ++ ["/", "", ""] := by
  induction pts with
  | nil => decide
  | cons p ps ih =>
    have hdec : (coordAll (p :: ps)).data ++ '/' :: '\n' :: '\n' :: []
        = (pointLine p).data ++
          '\n' :: ((coordAll ps).data ++ '/' :: '\n' :: '\n' :: []) := by
      show (coordLine p ++ coordAll ps).data ++ _ = _
      rw [string_data_append, coordLine_data]
      simp [List.append_assoc]
    rw [hdec, dataLines_cons _ _ (pointLine_no_nl p (h p (by simp))),
      string_mk_data, ih (fun q hq => h q (by simp [hq]))]
    rfl

/-- Claim C7: per entity, the trajectory compiler raises when the entity
has fewer than two trajectory points; otherwise it emits exactly one
specification Record — pad from the first associated row, every nullable
specification field wildcarded (`phase` keeps its non-null default
`LIQ`) — followed by exactly one trajectory Record with one coordinate
line per point in source order, each line holding the tokens
`X Y Z MD`. -/
theorem claim_c7 (rows : List TrajRow) (w : String) (hw : goodTok w)
    (hgood : ∀ r ∈ trajSlice rows w,
      goodTok r.x ∧ goodTok r.y ∧ goodTok r.md ∧ goodTok r.z) :
    ((trajSlice rows w).length < 2 → ∃ e, trackOne rows w = .error e) ∧
    (∀ r rs, trajSlice rows w = r :: rs → ¬ rs = [] →
      trackOne rows w = .ok
          [specs_out w (some r.pad) none none none "LIQ" none none none
            none none none none,
           traj_out w ((r :: rs).map (fun p => (p.x, p.y, p.md, p.z)))] ∧
      lineList (traj_out w ((r :: rs).map (fun p => (p.x, p.y, p.md, p.z))))
        = ("WELLTRACK " ++ w) ::
            ((r :: rs).map (fun p => pointLine (p.x, p.y, p.md, p.z)) ++
              ["/", "", ""]) ∧
      (∀ p ∈ r :: rs,
        tokList (pointLine (p.x, p.y, p.md, p.z)) = [p.x, p.y, p.z, p.md])) := by
  constructor
  · intro hlen
    cases hsl : trajSlice rows w with
    | nil => exact ⟨"Welltrack is missing", by simp [trackOne, hsl]⟩
    | cons a t =>
      cases t with
      | nil => exact ⟨"Welltrack is missing", by simp [trackOne, hsl]⟩
      | cons b t2 =>
        rw [hsl] at hlen
        simp at hlen
        omega
  · intro r rs hsl hne
    have hpts : ∀ p ∈ (r :: rs).map (fun p => (p.x, p.y, p.md, p.z)),
        goodPoint p := by
      intro p hp
      rcases List.mem_map.mp hp with ⟨q, hq, hpq⟩
      have hqs := hgood q (hsl ▸ hq)
      exact hpq ▸ ⟨hqs.1, hqs.2.1, hqs.2.2.1, hqs.2.2.2⟩
    refine ⟨?_, ?_, ?_⟩
    · unfold trackOne
      rw [hsl]
      cases rs with
      | nil => exact absurd rfl hne
      | cons b t2 => rfl
    · have hdata : (traj_out w
          ((r :: rs).map (fun p => (p.x, p.y, p.md, p.z)))).data
          = ("WELLTRACK " ++ w).data ++ '\n' ::
            ((coordAll ((r :: rs).map (fun p => (p.x, p.y, p.md, p.z)))).data
              ++ '/' :: '\n' :: '\n' :: []) := by
        simp [traj_out, string_data_append, dataSlashNlNl,
          List.append_assoc]
      rw [lineList_eq_dataLines, hdata, dataLines_cons _ _ ?hnl,
        string_mk_data, coordAll_lines _ hpts, List.map_map]
      case hnl =>
        rw [string_data_append]
        simp only [List.mem_append, not_or]
        exact ⟨by decide, hw.2.2⟩
      rfl
    · intro p hp
      have hpg := hgood p (hsl ▸ hp)
      exact tokList_pointLine (p.x, p.y, p.md, p.z)
        ⟨hpg.1, hpg.2.1, hpg.2.2.1, hpg.2.2.2⟩

/-- Claim C7 witness: a well with the two trajectory points of the spec
example, stored as table rows `(X, Y, MD, Z)`, yields the specification
Record then the trajectory Record with exactly two coordinate lines
`X Y Z MD`. -/
theorem claim_c7_wit :
    ((trajSlice [TrajRow.mk "P1" "PAD7" "0" "0" "0" "0",
        TrajRow.mk "P1" "PAD7" "10" "10" "45" "50"] "P1").length < 2 →
      ∃ e, trackOne [TrajRow.mk "P1" "PAD7" "0" "0" "0" "0",
        TrajRow.mk "P1" "PAD7" "10" "10" "45" "50"] "P1" = .error e) ∧
    (∀ r rs, trajSlice [TrajRow.mk "P1" "PAD7" "0" "0" "0" "0",
        TrajRow.mk "P1" "PAD7" "10" "10" "45" "50"] "P1" = r :: rs →
      ¬ rs = [] →
      trackOne [TrajRow.mk "P1" "PAD7" "0" "0" "0" "0",
          TrajRow.mk "P1" "PAD7" "10" "10" "45" "50"] "P1" = .ok
          [specs_out "P1" (some r.pad) none none none "LIQ" none none none
            none none none none,
           traj_out "P1" ((r :: rs).map (fun p => (p.x, p.y, p.md, p.z)))] ∧
      lineList (traj_out "P1"
          ((r :: rs).map (fun p => (p.x, p.y, p.md, p.z))))
        = ("WELLTRACK " ++ "P1") ::
            ((r :: rs).map (fun p => pointLine (p.x, p.y, p.md, p.z)) ++
              ["/", "", ""]) ∧
      (∀ p ∈ r :: rs,
        tokList (pointLine (p.x, p.y, p.md, p.z)) = [p.x, p.y, p.z, p.md])) :=
  claim_c7 [TrajRow.mk "P1" "PAD7" "0" "0" "0" "0",
      TrajRow.mk "P1" "PAD7" "10" "10" "45" "50"] "P1"
    (by decide) (by decide)

/-- Claim C8: date tokens of a date-stamp Record render as `DD MON YYYY`
(day zero-padded to two digits, month from the fixed three-letter table
in which July renders as `JLY`), with a trailing `HH:MM:SS ` token present
exactly when the source timestamp is a datetime (carries time-of-day
fields). -/
theorem claim_c8 :
    (∀ y m dd, dates_out (.d y m dd) =
      "DATES\n" ++ pad2 dd ++ " " ++ month_codes m ++ " " ++ toString y ++
        " " ++ "/\n" ++ "/\n\n") ∧
    (∀ y m dd h mi s, dates_out (.dt y m dd h mi s) =
      "DATES\n" ++ pad2 dd ++ " " ++ month_codes m ++ " " ++ toString y ++
        " " ++ (pad2 h ++ ":" ++ pad2 mi ++ ":" ++ pad2 s ++ " ") ++
        "/\n" ++ "/\n\n") ∧
    month_codes 7 = "JLY" ∧ month_codes 1 = "JAN" ∧ month_codes 2 = "FEB" ∧
    month_codes 3 = "MAR" ∧ month_codes 4 = "APR" ∧ month_codes 5 = "MAY" ∧
    month_codes 6 = "JUN" ∧ month_codes 8 = "AUG" ∧ month_codes 9 = "SEP" ∧
    month_codes 10 = "OCT" ∧ month_codes 11 = "NOV" ∧
    month_codes 12 = "DEC" := by
  refine ⟨fun y m dd => ?_, fun y m dd h mi s => ?_,
    rfl, rfl, rfl, rfl, rfl, rfl, rfl, rfl, rfl, rfl, rfl, rfl⟩
  · show "DATES\n" ++ pad2 dd ++ " " ++ month_codes m ++ " " ++ toString y ++
      " " ++ "" ++ "/\n" ++ "/\n\n" = _
    rw [string_append_empty]
  · rfl

/-- Claim C10: the presence of the `HH:MM:SS ` tail depends only on the
input's type: a datetime input always produces a (nonempty) tail, even at
time 00:00:00; a date input never does; and every DATES string a walker
run produces comes from a date input, hence carries no tail. -/
theorem claim_c10 :
    (∀ y m dd, dates_hour_tail (.dt y m dd 0 0 0) = "00:00:00 ") ∧
    (∀ y m dd h mi s, ¬ dates_hour_tail (.dt y m dd h mi s) = "") ∧
    (∀ y m dd, dates_hour_tail (.d y m dd) = "") ∧
    (∀ tb t0 n, ∀ s ∈ walkDatesStrings tb t0 n,
      ∃ y m, s = dates_out (.d y m 1)) := by
  refine ⟨fun y m dd => rfl, fun y m dd h mi s hem => ?_,
    fun y m dd => rfl, fun tb t0 n s hs => ?_⟩
  · have := congrArg String.data hem
    simp only [dates_hour_tail, string_data_append] at this
    simp [List.append_eq_nil] at this
  · rcases List.mem_filterMap.mp hs with ⟨r, _, hr⟩
    cases r with
    | dates t =>
      exact ⟨t / 12, t % 12 + 1, (Option.some.injEq _ _ ▸ hr).symm⟩
    | wconprodh w st c o wa g th bh => simp at hr
    | wconinjh w f st ra bh th c => simp at hr
    | wefac w f => simp at hr
    | compdatmd w lo up st => simp at hr
    | generic k a => simp at hr

theorem prodRecs_filter_other (e : String) (r : ProdRow)
    (h : ¬ r.well = e) :
    (prodRecs r).filter (prodCtlOrWefacFor e) = [] := by
  rw [List.filter_eq_nil_iff]
  intro x hx
  rcases prodRecs_mem r x hx with he | he | he <;> subst he <;>
    simp [prodCtlOrWefacFor, h]

theorem prodRecs_filter_self (r : ProdRow) (ho : 0 < r.oil) :
    (prodRecs r).filter (prodCtlOrWefacFor r.well)
      = [Rec.wconprodh r.well "OPEN" "LRAT" (some r.oil) (some r.water)
          (some r.gas) (presOpt r.thp) (presOpt r.bhp),
         Rec.wefac r.well (r.days / r.monthLength)] := by
  by_cases hw : 0 < r.winj <;>
    simp [prodRecs, hw, ho, prodCtlOrWefacFor]

theorem flatten_filter_nil (e : String) (as : List ProdRow)
    (h : ∀ x ∈ as, ¬ x.well = e) :
    ((as.map prodRecs).flatten).filter (prodCtlOrWefacFor e) = [] := by
  rw [List.filter_eq_nil_iff]
  intro x hx
  rcases List.mem_flatten.mp hx with ⟨l', hl', hxl⟩
  rcases List.mem_map.mp hl' with ⟨p, hpas, hpl⟩
  subst hpl
  have hp := prodRecs_filter_other e p (h p hpas)
  rw [List.filter_eq_nil_iff] at hp
  exact hp x hxl

/-- If the slice's sub-filter for entity `e` is exactly `[r]`, the
production loop's records filtered for `e` are those of `r`. -/
theorem slice_flatten_filter (e : String) (r : ProdRow) :
    ∀ l : List ProdRow, l.filter (fun x => x.well == e) = [r] →
      ((l.map prodRecs).flatten).filter (prodCtlOrWefacFor e)
        = (prodRecs r).filter (prodCtlOrWefacFor e) := by
  intro l
  induction l with
  | nil =>
    intro h
    simp at h
  | cons a as ih =>
    intro h
    rw [List.filter_cons] at h
    by_cases ha : (a.well == e) = true
    · rw [if_pos ha] at h
      have h1 : a = r := (List.cons_eq_cons.mp h).1
      have h2 : as.filter (fun x => x.well == e) = [] :=
        (List.cons_eq_cons.mp h).2
      have hnil : ∀ x ∈ as, ¬ x.well = e := by
        intro x hxas hxe
        have hxmem : x ∈ as.filter (fun x => x.well == e) :=
          List.mem_filter.mpr ⟨hxas, by simp [hxe]⟩
        rw [h2] at hxmem
        simp at hxmem
      subst h1
      simp only [List.map_cons, List.flatten_cons, List.filter_append]
      rw [flatten_filter_nil e as hnil, List.append_nil]
    · rw [if_neg ha] at h
      have haw : ¬ a.well = e := by
        intro hh
        exact ha (by simp [hh])
      simp only [List.map_cons, List.flatten_cons, List.filter_append]
      rw [prodRecs_filter_other e a haw, ih h, List.nil_append]

/-- Claim C1 counterexample: an entity whose period fact has
`gas_rate > 0` but `oil_rate = 0` (and no injection) gets NO
production-control and NO efficiency-factor record — the claim demands
exactly one of each. -/
theorem claim_c1_cex :
    (0 : ℚ) < (ProdRow.mk "W1" 5 0 0 3 0 20 30 0 0).gas ∧
    (walk (Tables.mk [ProdRow.mk "W1" 5 0 0 3 0 20 30 0 0] [] []) 5 1).filter
        (prodCtlOrWefacFor "W1") = [] := by
  constructor
  · decide
  · rfl

/-- Claim C1 (amended): if entity `E` has the unique production fact `r`
of period `t` and `r.oil > 0` (a positive water or gas rate alone does
not trigger emission), the period emits exactly one production-control
record and exactly one efficiency-factor record for `E`, in that order,
with factor `days / month_length`; the factor lies in `(0, 1]` provided
`0 < days ≤ month_length`. -/
theorem claim_c1 (tb : Tables) (first : Bool) (t : Nat) (E : String)
    (r : ProdRow) (hE : ¬ E = "*")
    (hfilter : (tb.production.filter (fun x => x.date == t)).filter
        (fun x => x.well == E) = [r])
    (hoil : 0 < r.oil) (hdays : 0 < r.days)
    (hlen : r.days ≤ r.monthLength) :
    (stepOut tb first t).filter (prodCtlOrWefacFor E)
      = [Rec.wconprodh E "OPEN" "LRAT" (some r.oil) (some r.water)
          (some r.gas) (presOpt r.thp) (presOpt r.bhp),
         Rec.wefac E (r.days / r.monthLength)] ∧
    0 < r.days / r.monthLength ∧ r.days / r.monthLength ≤ 1 := by
  have hrmem : r ∈ (tb.production.filter (fun x => x.date == t)).filter
      (fun x => x.well == E) := by
    rw [hfilter]
    simp
  have hrwell : r.well = E := by
    have := (List.mem_filter.mp hrmem).2
    simpa using this
  have hml : (0 : ℚ) < r.monthLength := lt_of_lt_of_le hdays hlen
  refine ⟨?_, div_pos hdays hml, (div_le_one hml).mpr hlen⟩
  unfold stepOut entityPart
  simp only [List.filter_append]
  have hpre : ∀ pl : List PerfRow,
      ((pl.map perfRec).filter (prodCtlOrWefacFor E)) = [] := by
    intro pl
    rw [List.filter_eq_nil_iff]
    intro x hx
    rcases List.mem_map.mp hx with ⟨p, _, hpx⟩
    subst hpx
    simp [perfRec, prodCtlOrWefacFor]
  have h1 : (if first then (tb.perf.filter (fun r => r.date < t)).map perfRec
      else []).filter (prodCtlOrWefacFor E) = [] := by
    cases first
    · simp
    · simp only [if_pos]
      exact hpre _
  have hstar : ¬ ("*" : String) = E := fun hh => hE hh.symm
  have h2 : (if first then ([] : List Rec) else Rec.dates t :: resets).filter
      (prodCtlOrWefacFor E) = [] := by
    cases first
    · simp [resets, prodCtlOrWefacFor, hstar]
    · simp
  have h3 : ((tb.manops.filter (fun r => r.date == t)).map
      (fun r => Rec.generic r.kw r.args)).filter (prodCtlOrWefacFor E) = [] := by
    rw [List.filter_eq_nil_iff]
    intro x hx
    rcases List.mem_map.mp hx with ⟨p, _, hpx⟩
    subst hpx
    simp [prodCtlOrWefacFor]
  rw [h1, h2, h3, hpre,
    slice_flatten_filter E r _ hfilter]
  have := prodRecs_filter_self r hoil
  rw [hrwell] at this
  rw [this]
  simp

/-- Claim C1 witness: the amended statement at a concrete one-row
period. -/
theorem claim_c1_wit :
    (stepOut (Tables.mk [ProdRow.mk "W1" 7 4 1 2 0 20 30 0 0] [] [])
        false 7).filter (prodCtlOrWefacFor "W1")
      = [Rec.wconprodh "W1" "OPEN" "LRAT" (some 4) (some 1) (some 2)
          (presOpt 0) (presOpt 0),
         Rec.wefac "W1" ((20 : ℚ) / 30)] ∧
    (0 : ℚ) < (20 : ℚ) / 30 ∧ (20 : ℚ) / 30 ≤ 1 :=
  claim_c1 (Tables.mk [ProdRow.mk "W1" 7 4 1 2 0 20 30 0 0] [] []) false 7
    "W1" (ProdRow.mk "W1" 7 4 1 2 0 20 30 0 0) (by decide) rfl (by decide)
    (by decide) (by decide)

/-- Claim C3: in every non-initial period the walker emits exactly one
date-stamp record followed by the three wildcard-entity reset records
(production control to SHUT, injection control to SHUT, efficiency factor
to 1), all before any entity-specific record of the period; the initial
period emits no date stamp and no reset. -/
theorem claim_c3 (tb : Tables) (t0 n i : Nat) (hin : i < n)
    (hw : ∀ r ∈ tb.production, ¬ r.well = "*") :
    (∃ pre post, walk tb t0 n
        = pre ++ stepOut tb (i == 0) (t0 + i) ++ post) ∧
    (¬ i = 0 →
      stepOut tb false (t0 + i)
        = Rec.dates (t0 + i) :: (resets ++ entityPart tb (t0 + i)) ∧
      (entityPart tb (t0 + i)).countP isDatesRec = 0 ∧
      ∀ x ∈ resets, x ∉ entityPart tb (t0 + i)) ∧
    (i = 0 →
      stepOut tb true t0
        = (tb.perf.filter (fun r => r.date < t0)).map perfRec ++
            entityPart tb t0 ∧
      (stepOut tb true t0).countP isDatesRec = 0 ∧
      ∀ x ∈ resets, x ∉ stepOut tb true t0) := by
  refine ⟨?_, ?_, ?_⟩
  · unfold walk
    exact flatten_decomp _ n i hin
  · intro _
    refine ⟨by simp [stepOut], ?_, ?_⟩
    · rw [List.countP_eq_zero]
      intro x hx
      simp [(entityPart_clean tb (t0 + i) hw x hx).1]
    · intro x hxr hxe
      exact (entityPart_clean tb (t0 + i) hw x hxe).2 hxr
  · intro _
    have hstep : stepOut tb true t0
        = (tb.perf.filter (fun r => r.date < t0)).map perfRec ++
            entityPart tb t0 := by
      simp [stepOut]
    refine ⟨hstep, ?_, ?_⟩
    · rw [hstep, List.countP_append, List.countP_eq_zero.mpr,
        List.countP_eq_zero.mpr]
      · intro x hx
        simp [(entityPart_clean tb t0 hw x hx).1]
      · intro x hx
        rcases List.mem_map.mp hx with ⟨p, _, hpx⟩
        subst hpx
        simp [perfRec, isDatesRec]
    · intro x hxr hxs
      rw [hstep] at hxs
      rcases List.mem_append.mp hxs with h1 | h2
      · rcases List.mem_map.mp h1 with ⟨p, _, hpx⟩
        subst hpx
        revert hxr
        simp [perfRec, resets]
      · exact (entityPart_clean tb t0 hw x h2).2 hxr

/-- Claim C3 witness: a two-period walk over concrete tables. -/
theorem claim_c3_wit :
    (∃ pre post,
      walk (Tables.mk [ProdRow.mk "W1" 8 4 1 2 0 20 30 0 0]
          [PerfRow.mk "M1" 7 10 20 true] [OpRow.mk 8 "WLIST" "args"]) 7 2
        = pre ++ stepOut (Tables.mk [ProdRow.mk "W1" 8 4 1 2 0 20 30 0 0]
            [PerfRow.mk "M1" 7 10 20 true] [OpRow.mk 8 "WLIST" "args"])
            false 8 ++ post) ∧
    (¬ 1 = 0 →
      stepOut (Tables.mk [ProdRow.mk "W1" 8 4 1 2 0 20 30 0 0]
          [PerfRow.mk "M1" 7 10 20 true] [OpRow.mk 8 "WLIST" "args"])
          false 8
        = Rec.dates 8 :: (resets ++
            entityPart (Tables.mk [ProdRow.mk "W1" 8 4 1 2 0 20 30 0 0]
              [PerfRow.mk "M1" 7 10 20 true] [OpRow.mk 8 "WLIST" "args"]) 8) ∧
      (entityPart (Tables.mk [ProdRow.mk "W1" 8 4 1 2 0 20 30 0 0]
          [PerfRow.mk "M1" 7 10 20 true]
          [OpRow.mk 8 "WLIST" "args"]) 8).countP isDatesRec = 0 ∧
      ∀ x ∈ resets,
        x ∉ entityPart (Tables.mk [ProdRow.mk "W1" 8 4 1 2 0 20 30 0 0]
          [PerfRow.mk "M1" 7 10 20 true] [OpRow.mk 8 "WLIST" "args"]) 8) ∧
    (1 = 0 →
      stepOut (Tables.mk [ProdRow.mk "W1" 8 4 1 2 0 20 30 0 0]
          [PerfRow.mk "M1" 7 10 20 true] [OpRow.mk 8 "WLIST" "args"]) true 7
        = ((Tables.mk [ProdRow.mk "W1" 8 4 1 2 0 20 30 0 0]
            [PerfRow.mk "M1" 7 10 20 true]
            [OpRow.mk 8 "WLIST" "args"]).perf.filter
              (fun r => r.date < 7)).map perfRec ++
            entityPart (Tables.mk [ProdRow.mk "W1" 8 4 1 2 0 20 30 0 0]
              [PerfRow.mk "M1" 7 10 20 true] [OpRow.mk 8 "WLIST" "args"]) 7 ∧
      (stepOut (Tables.mk [ProdRow.mk "W1" 8 4 1 2 0 20 30 0 0]
          [PerfRow.mk "M1" 7 10 20 true] [OpRow.mk 8 "WLIST" "args"])
          true 7).countP isDatesRec = 0 ∧
      ∀ x ∈ resets,
        x ∉ stepOut (Tables.mk [ProdRow.mk "W1" 8 4 1 2 0 20 30 0 0]
          [PerfRow.mk "M1" 7 10 20 true] [OpRow.mk 8 "WLIST" "args"])
          true 7) :=
  claim_c3 (Tables.mk [ProdRow.mk "W1" 8 4 1 2 0 20 30 0 0]
      [PerfRow.mk "M1" 7 10 20 true] [OpRow.mk 8 "WLIST" "args"]) 7 2 1
    (by decide) (by decide)

/-- Claim C4: every perforation fact dated strictly before the initial
timestep is emitted exactly once, as part of the initial period's
pre-start batch that opens the walk, and belongs to no period's
current-date slice (the only other source of perforation records), hence
is never emitted again. -/
theorem claim_c4 (tb : Tables) (t0 n : Nat) (hn : 0 < n) :
    (∃ rest, walk tb t0 n
        = (tb.perf.filter (fun r => r.date < t0)).map perfRec ++ rest) ∧
    (∀ i : Nat, ∀ r ∈ tb.perf, r.date < t0 →
      r ∉ tb.perf.filter (fun x => x.date == t0 + i)) := by
  constructor
  · obtain ⟨m, rfl⟩ : ∃ m, n = m + 1 := ⟨n - 1, by omega⟩
    refine ⟨entityPart tb t0 ++
      (((List.range m).map
        (fun j => stepOut tb (Nat.succ j == 0) (t0 + Nat.succ j))).flatten),
      ?_⟩
    unfold walk
    rw [List.range_succ_eq_map, List.map_cons, List.flatten_cons,
      List.map_map]
    simp [stepOut, List.append_assoc]
    rfl
  · intro i r _ hlt hmem
    have hd := (List.mem_filter.mp hmem).2
    simp only [beq_iff_eq] at hd
    omega

/-- Claim C4 witness: a concrete two-period walk with one pre-start
perforation fact. -/
theorem claim_c4_wit :
    (∃ rest,
      walk (Tables.mk [] [PerfRow.mk "M1" 5 10 20 true,
          PerfRow.mk "M2" 8 30 40 false] []) 7 2
        = ((Tables.mk [] [PerfRow.mk "M1" 5 10 20 true,
            PerfRow.mk "M2" 8 30 40 false] []).perf.filter
              (fun r => r.date < 7)).map perfRec ++ rest) ∧
    (∀ i : Nat, ∀ r ∈ (Tables.mk [] [PerfRow.mk "M1" 5 10 20 true,
        PerfRow.mk "M2" 8 30 40 false] []).perf, r.date < 7 →
      r ∉ (Tables.mk [] [PerfRow.mk "M1" 5 10 20 true,
          PerfRow.mk "M2" 8 30 40 false] []).perf.filter
            (fun x => x.date == 7 + i)) :=
  claim_c4 (Tables.mk [] [PerfRow.mk "M1" 5 10 20 true,
      PerfRow.mk "M2" 8 30 40 false] []) 7 2 (by decide)

/-- Claim C5: the Normalizer divides each reported volume by
days-on-production and sets `month_length` to the calendar day-count of
the row's month; the example row OIL 100, WATER 0, GAS 50, DAYS 20 in the
30-day month June 2020 yields a production-control record with rates
5 / 0 / 2.5 and an efficiency record with factor 20/30, the zero water
rate does not suppress the record, and only a row with no oil and no
injection is suppressed. -/
theorem claim_c5 :
    (preprocess_prod (RawProdRow.mk "W1" 2020 6 100 0 50 0 20 0 0)).oil
        = 5 ∧
    (preprocess_prod (RawProdRow.mk "W1" 2020 6 100 0 50 0 20 0 0)).water
        = 0 ∧
    (preprocess_prod (RawProdRow.mk "W1" 2020 6 100 0 50 0 20 0 0)).gas
        = 5 / 2 ∧
    (preprocess_prod (RawProdRow.mk "W1" 2020 6 100 0 50 0 20 0 0)).winj
        = 0 ∧
    (preprocess_prod
        (RawProdRow.mk "W1" 2020 6 100 0 50 0 20 0 0)).monthLength = 30 ∧
    prodRecs (preprocess_prod (RawProdRow.mk "W1" 2020 6 100 0 50 0 20 0 0))
      = [Rec.wconprodh "W1" "OPEN" "LRAT" (some 5) (some 0) (some (5 / 2))
          none none,
         Rec.wefac "W1" (20 / 30)] ∧
    prodRecs (preprocess_prod (RawProdRow.mk "W2" 2020 6 0 40 0 0 20 0 0))
      = [] := by
  norm_num [preprocess_prod, prodRecs, presOpt, daysInMonth, isLeap]

/-- Claim C6 counterexample: two perforation-referenced entities (P1, P2)
have no match in the cross-reference table, yet compilation does NOT
abort: the right merge silently drops unmatched perforation rows, and the
orphan assertion counts cross-reference entities without perforations
instead. -/
theorem claim_c6_cex :
    (([RawPerfRow.mk "P1" 5 1 2 true, RawPerfRow.mk "P2" 5 3 4 false,
        RawPerfRow.mk "W1" 5 1 2 true].filter (fun p =>
          ([XrefRow.mk "W1" "M1" "F"].filter
            (fun x => p.well == x.mer)).isEmpty)).length = 2) ∧
    (perfOrphans [RawPerfRow.mk "P1" 5 1 2 true,
        RawPerfRow.mk "P2" 5 3 4 false, RawPerfRow.mk "W1" 5 1 2 true]
        [XrefRow.mk "W1" "M1" "F"] "F").length = 0 ∧
    compileRun [RawPerfRow.mk "P1" 5 1 2 true,
        RawPerfRow.mk "P2" 5 3 4 false, RawPerfRow.mk "W1" 5 1 2 true]
        [XrefRow.mk "W1" "M1" "F"] [] [] "F" 0 1 = .ok [] := by
  refine ⟨by decide, by decide, ?_⟩
  rfl

/-- Claim C6 (amended): the tolerated-missing-entity check runs in the
opposite direction from the claim: perforation rows whose entity has no
cross-reference match are silently dropped by the right merge, while a
cross-reference entity (of the selected field) with NO perforation rows
counts as an orphan; at most one orphan is tolerated, and two or more
abort the compilation with an error before any output is produced. -/
theorem claim_c6 (raw : List RawPerfRow) (xref : List XrefRow)
    (production : List ProdRow) (ops : List OpRow) (zone : String)
    (t0 n : Nat) (h2 : 2 ≤ (perfOrphans raw xref zone).length) :
    compileRun raw xref production ops zone t0 n
      = .error "Wells have no perforations" := by
  unfold compileRun
  rw [if_neg]
  omega

/-- Claim C6 witness: two cross-reference entities without perforation
rows abort the compilation. -/
theorem claim_c6_wit :
    compileRun [] [XrefRow.mk "W1" "M1" "F", XrefRow.mk "W2" "M2" "F"]
        [] [] "F" 0 1 = .error "Wells have no perforations" :=
  claim_c6 [] [XrefRow.mk "W1" "M1" "F", XrefRow.mk "W2" "M2" "F"] [] []
    "F" 0 1 (by decide)

/-- Claim C10 witness: the statement at midnight datetime and date
inputs, and at a DATES string of a concrete two-period walk. -/
theorem claim_c10_wit :
    dates_hour_tail (.dt 2020 7 1 0 0 0) = "00:00:00 " ∧
    ¬ dates_hour_tail (.dt 2020 7 5 0 0 0) = "" ∧
    dates_hour_tail (.d 2020 7 1) = "" ∧
    (∃ y m, dates_out (.d 0 2 1) = dates_out (.d y m 1)) :=
  ⟨claim_c10.1 2020 7 1, claim_c10.2.1 2020 7 5 0 0 0,
   claim_c10.2.2.1 2020 7 1,
   claim_c10.2.2.2 (Tables.mk [] [] []) 0 2 (dates_out (.d 0 2 1))
     (by decide)⟩

end TNav
